import Mathlib

/-!
Verification of the Tami knowledge-graph engine (entity resolution and
relationship inference layer over a graph store).

The engine's write operations are single Cypher statements executed against
the store.  We embed them shallowly: the graph is a `GraphState` (lists of
entity nodes, meeting nodes, mention edges and relationship edges) and each
operation is a Lean function on `GraphState`, translated clause by clause
from the Cypher text in
`scripts/neo4j/operations/entities.py` and
`scripts/neo4j/operations/relationships.py`, following openCypher clause
semantics: each clause transforms the whole row table, write clauses execute
once per row, and property reads see earlier writes of the same statement.
Wall-clock `datetime()` values are supplied as an explicit `now : Nat`
parameter; timestamps are `Nat`, float scores are `Rat`.
-/

namespace Tami

/-- Python `str.lower`, character-wise lower-casing (the `.lower()` calls of
the engine). -/
def pyLower (s : String) : String := String.mk (s.data.map Char.toLower)

/-- Python `str.capitalize`: first character upper-cased, rest lower-cased.
Used to turn an entity-type value such as `"person"` into the label
`"Person"`. -/
def pyCapitalize (s : String) : String :=
  match (pyLower s).data with
  | [] => ""
  | c :: cs => String.mk (c.toUpper :: cs)

/-- Entity node as stored in the graph (`MERGE (e:Entity:{label} ...)`).
`label` is the second node label derived from the entity type. -/
structure EntityNode where
  id : String
  user_id : String
  label : String
  normalized_value : String
  display_value : String
  aliases : List String
  description : Option String
  mention_count : Int
  confidence : Rat
  first_seen : Nat
  last_seen : Nat
  sentiment_avg : Option Rat
  is_user_created : Bool
  created_at : Option Nat
  updated_at : Option Nat
  deriving Repr, DecidableEq

/-- Input model `Entity` (scripts/neo4j/models.py), as passed to
`upsert_entity`.  `type` holds the `EntityType` value string. -/
structure Entity where
  id : String
  user_id : String
  type : String
  normalized_value : String
  display_value : String
  aliases : List String
  description : Option String
  mention_count : Int
  confidence : Rat
  first_seen : Nat
  last_seen : Nat
  sentiment_avg : Option Rat
  is_user_created : Bool
  deriving Repr, DecidableEq

/-- Meeting node (only the fields the modelled operations touch). -/
structure MeetingNode where
  id : String
  user_id : String
  title : String
  deriving Repr, DecidableEq

/-- A `MENTIONED_IN` edge from an entity node to a meeting node, with the
properties set by `add_mention`. -/
structure MentionEdge where
  entity_id : String
  meeting_id : String
  context : String
  timestamp_start : Option Rat
  timestamp_end : Option Rat
  speaker : Option String
  mention_count : Int
  sentiment : Option Rat
  created_at : Option Nat
  updated_at : Option Nat
  deriving Repr, DecidableEq

/-- A property value on a relationship edge. -/
inductive PropVal where
  | s (v : String)
  | i (v : Int)
  | q (v : Rat)
  deriving Repr, DecidableEq

/-- A typed directed relationship edge between two entities, with a
free-form property map (association list, first binding wins on read). -/
structure RelEdge where
  from_id : String
  to_id : String
  rel_type : String
  props : List (String × PropVal)
  deriving Repr, DecidableEq

/-- Read a property from an edge property map. -/
def getProp (props : List (String × PropVal)) (k : String) : Option PropVal :=
  (props.find? (fun p => p.1 == k)).map Prod.snd

/-- Write a property in an edge property map (`SET r.k = v`): replace the
binding if the key is present, append it otherwise. -/
def setProp (props : List (String × PropVal)) (k : String) (v : PropVal) :
    List (String × PropVal) :=
  if props.any (fun p => p.1 == k) then
    props.map (fun p => if p.1 == k then (k, v) else p)
  else
    props ++ [(k, v)]

/-- The whole graph: the store the engine's Cypher statements run against. -/
structure GraphState where
  entities : List EntityNode
  meetings : List MeetingNode
  mentions : List MentionEdge
  rels : List RelEdge
  deriving Repr, DecidableEq

/-- The match predicate of `upsert_entity`'s
`MERGE (e:Entity:{label} {user_id: $user_id, normalized_value: $normalized_value})`:
the node carries the type label and the two key properties. -/
def entityMatchesKey (lbl uid norm : String) (e : EntityNode) : Bool :=
  e.label == lbl && e.user_id == uid && e.normalized_value == norm

/-- The `ON MATCH SET` clause of `upsert_entity`: accumulate
`mention_count`, overwrite `last_seen`, append the not-yet-present aliases
(the Cypher `CASE`), stamp `updated_at`. -/
def onMatchUpdate (entity : Entity) (now : Nat) (e : EntityNode) : EntityNode :=
  { e with
    mention_count := e.mention_count + entity.mention_count,
    last_seen := entity.last_seen,
    aliases :=
      if 0 < (entity.aliases.filter (fun a => !(e.aliases.contains a))).length then
        e.aliases ++ entity.aliases.filter (fun a => !(e.aliases.contains a))
      else
        e.aliases,
    updated_at := some now }

/-- `EntityOperations.upsert_entity`: a single `MERGE` keyed on
`(user_id, normalized_value)` under the `Entity` and type labels, with
`ON CREATE SET` / `ON MATCH SET` branches.  The parameter `normalized_value`
is lower-cased before the call; `freshId` stands for the `uuid.uuid4()`
used when `entity.id` is empty (Python `entity.id or str(uuid.uuid4())`).
Returns the new state and the first returned row (`run_single_query`). -/
def upsert_entity (st : GraphState) (entity : Entity) (freshId : String)
    (now : Nat) : GraphState × Option EntityNode :=
  let lbl := pyCapitalize entity.type
  let norm := pyLower entity.normalized_value
  let k := entityMatchesKey lbl entity.user_id norm
  if st.entities.any k then
    let upd := fun e => if k e then onMatchUpdate entity now e else e
    ({ st with entities := st.entities.map upd }, (st.entities.find? k).map upd)
  else
    let newNode : EntityNode := {
      id := if entity.id == "" then freshId else entity.id,
      user_id := entity.user_id,
      label := lbl,
      normalized_value := norm,
      display_value := entity.display_value,
      aliases := entity.aliases,
      description := entity.description,
      mention_count := entity.mention_count,
      confidence := entity.confidence,
      first_seen := entity.first_seen,
      last_seen := entity.last_seen,
      sentiment_avg := entity.sentiment_avg,
      is_user_created := entity.is_user_created,
      created_at := some now,
      updated_at := none }
    ({ st with entities := st.entities ++ [newNode] }, some newNode)

/-- Fold a sequence of `upsert_entity` calls (each call carries its entity,
the fresh id it would draw, and its wall-clock time). -/
def upsertMany (st : GraphState) (calls : List (Entity × String × Nat)) :
    GraphState :=
  calls.foldl (fun s c => (upsert_entity s c.1 c.2.1 c.2.2).1) st

/-- Input model `EntityMention` (scripts/neo4j/models.py). -/
structure EntityMention where
  entity_id : String
  meeting_id : String
  context : String
  timestamp_start : Option Rat
  timestamp_end : Option Rat
  speaker : Option String
  mention_count : Int
  sentiment : Option Rat
  deriving Repr, DecidableEq

/-- The match predicate for the single `MENTIONED_IN` edge of an
(entity, meeting) pair. -/
def mentionMatches (eid mid : String) (r : MentionEdge) : Bool :=
  r.entity_id == eid && r.meeting_id == mid

/-- The `ON MATCH SET` clause of `add_mention`'s `MERGE`: accumulate
`mention_count`, stamp `updated_at`; every other edge property keeps its
first-observed value. -/
def mentionOnMatch (mention : EntityMention) (now : Nat) (r : MentionEdge) :
    MentionEdge :=
  { r with mention_count := r.mention_count + mention.mention_count,
           updated_at := some now }

/-- The `ON CREATE SET` clause of `add_mention`'s `MERGE`. -/
def mentionOnCreate (mention : EntityMention) (now : Nat) : MentionEdge :=
  { entity_id := mention.entity_id,
    meeting_id := mention.meeting_id,
    context := mention.context,
    timestamp_start := mention.timestamp_start,
    timestamp_end := mention.timestamp_end,
    speaker := mention.speaker,
    mention_count := mention.mention_count,
    sentiment := mention.sentiment,
    created_at := some now,
    updated_at := none }

/-- `EntityOperations.add_mention`:
`MATCH (e:Entity {id}) MATCH (m:Meeting {id}) MERGE (e)-[r:MENTIONED_IN]->(m)`
with `ON CREATE SET` initialising the edge and `ON MATCH SET` accumulating
`mention_count`.  If either endpoint is missing the `MATCH` yields no rows,
nothing is written and `run_single_query` returns `None` (here: `false`). -/
def add_mention (st : GraphState) (mention : EntityMention) (now : Nat) :
    GraphState × Bool :=
  if st.entities.any (fun e => e.id == mention.entity_id) &&
     st.meetings.any (fun m => m.id == mention.meeting_id) then
    if st.mentions.any (mentionMatches mention.entity_id mention.meeting_id) then
      ({ st with mentions := st.mentions.map (fun r =>
          if mentionMatches mention.entity_id mention.meeting_id r then
            mentionOnMatch mention now r
          else r) }, true)
    else
      ({ st with mentions := st.mentions ++ [mentionOnCreate mention now] }, true)
  else
    (st, false)

/-- Input model `EntityRelationship` (scripts/neo4j/models.py).  The
relationship type travels as its value string; `properties` holds the
free-form extra properties. -/
structure EntityRelationship where
  from_entity_id : String
  to_entity_id : String
  relationship_type : String
  confidence : Rat
  source : String
  properties : List (String × PropVal)
  deriving Repr, DecidableEq

/-- `RelationshipOperations.VALID_RELATIONSHIPS`: the type-compatibility
table, ordered entity-type pairs to allowed relationship type names.
Defined in the source but never consulted by `create_relationship`. -/
def VALID_RELATIONSHIPS : List ((String × String) × List String) :=
  [(("Person", "Organization"), ["WORKS_AT", "FOUNDED", "LEADS"]),
   (("Person", "Project"), ["MANAGES", "WORKS_ON", "OWNS"]),
   (("Person", "Person"), ["COLLABORATES_WITH", "REPORTS_TO", "MENTORS"]),
   (("Person", "ActionItem"), ["ASSIGNED_TO"]),
   (("Project", "Technology"), ["USES", "BUILT_WITH"]),
   (("Project", "Topic"), ["RELATED_TO", "ADDRESSES"]),
   (("Organization", "Location"), ["LOCATED_IN", "OPERATES_IN"]),
   (("ActionItem", "Date"), ["SCHEDULED_FOR", "DUE_ON"])]

/-- The set of relationship types the table allows for an ordered
endpoint-type pair (empty when the pair has no row). -/
def allowedRelTypes (pair : String × String) : List String :=
  ((VALID_RELATIONSHIPS.find? (fun kv => kv.1 == pair)).map Prod.snd).getD []

/-- The property map written by `create_relationship`'s APOC call:
`{"confidence": ..., "source": ..., "created_at": "datetime()", **rel.properties}`
(Python dict merge: entries of `rel.properties` override the base keys;
note `created_at` is the literal string `"datetime()"` in the source). -/
def relProperties (rel : EntityRelationship) : List (String × PropVal) :=
  ([("confidence", PropVal.q rel.confidence),
    ("source", PropVal.s rel.source),
    ("created_at", PropVal.s "datetime()")].filter
      (fun p => !(rel.properties.any (fun q => q.1 == p.1)))) ++ rel.properties

/-- The edge `apoc.create.relationship` builds for a
`create_relationship` call. -/
def newRelEdge (rel : EntityRelationship) : RelEdge :=
  { from_id := rel.from_entity_id,
    to_id := rel.to_entity_id,
    rel_type := rel.relationship_type,
    props := relProperties rel }

/-- `RelationshipOperations.create_relationship`:
`MATCH (from:Entity {id}) MATCH (to:Entity {id})` then
`apoc.create.relationship(from, $rel_type, $properties, to)`, which always
creates a fresh edge (the non-APOC fallback likewise uses `CREATE`).  No
validation against `VALID_RELATIONSHIPS` happens anywhere on this path.
Returns `false` (a `None` row) when an endpoint is missing. -/
def create_relationship (st : GraphState) (rel : EntityRelationship) :
    GraphState × Bool :=
  if st.entities.any (fun e => e.id == rel.from_entity_id) &&
     st.entities.any (fun e => e.id == rel.to_entity_id) then
    ({ st with rels := st.rels ++ [newRelEdge rel] }, true)
  else
    (st, false)

/-- Does a `MENTIONED_IN` edge from entity `eid` to meeting `mid` exist? -/
def hasMentionEdge (mentions : List MentionEdge) (eid mid : String) : Bool :=
  mentions.any (mentionMatches eid mid)

/-- `count(DISTINCT m)` of `infer_collaborations`: the number of meetings in
which both entities have a `MENTIONED_IN` edge. -/
def sharedMeetingCount (st : GraphState) (id1 id2 : String) : Nat :=
  (st.meetings.filter (fun m =>
    hasMentionEdge st.mentions id1 m.id && hasMentionEdge st.mentions id2 m.id)).length

/-- The row set feeding `infer_collaborations`' `MERGE`: ordered pairs of
`Person` entities of the owner with `p1.id < p2.id`, at least one shared
meeting (the `MATCH` pattern), and shared-meeting count at least the
threshold (the `WHERE meeting_count >= $min_co_occurrences`). -/
def collabPairs (st : GraphState) (uid : String) (minCo : Nat) :
    List (EntityNode × EntityNode) :=
  st.entities.flatMap (fun p1 =>
    (st.entities.filter (fun p2 =>
      p1.label == "Person" && p1.user_id == uid &&
      p2.label == "Person" && p2.user_id == p1.user_id &&
      decide (p1.id < p2.id) &&
      decide (1 ≤ sharedMeetingCount st p1.id p2.id) &&
      decide (minCo ≤ sharedMeetingCount st p1.id p2.id))).map (fun p2 => (p1, p2)))

/-- Match predicate for a `COLLABORATES_WITH` edge from `a` to `b`. -/
def isCollabEdge (a b : String) (r : RelEdge) : Bool :=
  r.from_id == a && r.to_id == b && r.rel_type == "COLLABORATES_WITH"

/-- The `ON MATCH SET` of `infer_collaborations`' `MERGE`: refresh
`strength` to the current count, stamp `updated_at`. -/
def setStrength (v : Int) (now : Nat) (r : RelEdge) : RelEdge :=
  { r with props := setProp (setProp r.props "strength" (PropVal.i v)) "updated_at" (PropVal.i now) }

/-- The `ON CREATE SET` of `infer_collaborations`' `MERGE`. -/
def newCollabEdge (a b : String) (v : Int) (now : Nat) : RelEdge :=
  { from_id := a, to_id := b, rel_type := "COLLABORATES_WITH",
    props := [("strength", PropVal.i v), ("source", PropVal.s "inferred"),
              ("created_at", PropVal.i now)] }

/-- One `MERGE (p1)-[r:COLLABORATES_WITH]->(p2)` row of
`infer_collaborations`: update every matching edge, or create one. -/
def mergeCollabEdge (st : GraphState) (a b : String) (v : Int) (now : Nat) :
    GraphState :=
  if st.rels.any (isCollabEdge a b) then
    { st with rels := st.rels.map (fun r =>
        if isCollabEdge a b r then setStrength v now r else r) }
  else
    { st with rels := st.rels ++ [newCollabEdge a b v now] }

/-- `RelationshipOperations.infer_collaborations`: the aggregation `WITH`
computes each qualifying pair's shared-meeting count on the pre-state, then
the `MERGE` runs once per row.  Returns the row count (`count(r)`). -/
def infer_collaborations (st : GraphState) (uid : String) (minCo : Nat)
    (now : Nat) : GraphState × Nat :=
  let ps := collabPairs st uid minCo
  (ps.foldl (fun acc p =>
      mergeCollabEdge acc p.1.id p.2.id
        (Int.ofNat (sharedMeetingCount st p.1.id p.2.id)) now) st,
   ps.length)

/-- The `COLLABORATES_WITH` edges from `a` to `b` (directed). -/
def cf (s : GraphState) (a b : String) : List RelEdge :=
  s.rels.filter (isCollabEdge a b)

/-- The observable `COLLABORATES_WITH` edge set: endpoints, `strength` and
`source` of every such edge, in store order. -/
def collabProj (s : GraphState) :
    List (String × String × Option PropVal × Option PropVal) :=
  (s.rels.filter (fun r => r.rel_type == "COLLABORATES_WITH")).map
    (fun r => (r.from_id, r.to_id, getProp r.props "strength", getProp r.props "source"))

/-- Run `infer_collaborations`' per-row `MERGE` over a list of
(ordered key, strength) jobs. -/
def foldMergeCollab (s : GraphState) (P : List ((String × String) × Int))
    (now : Nat) : GraphState :=
  P.foldl (fun acc kv => mergeCollabEdge acc kv.1.1 kv.1.2 kv.2 now) s

/-- The (ordered key, strength) jobs an `infer_collaborations` run performs. -/
def collabKeyJobs (s : GraphState) (uid : String) (minCo : Nat) :
    List ((String × String) × Int) :=
  (collabPairs s uid minCo).map
    (fun p => ((p.1.id, p.2.id), Int.ofNat (sharedMeetingCount s p.1.id p.2.id)))

/-- The qualification of C8, in the spec's words: two `Person` entities of
the owner, ordered by id, whose distinct shared-meeting count reaches the
threshold. -/
def QualifiesCollab (st : GraphState) (uid : String) (minCo : Nat)
    (a b : String) : Prop :=
  ∃ p ∈ st.entities, ∃ q ∈ st.entities,
    p.label = "Person" ∧ q.label = "Person" ∧ p.user_id = uid ∧ q.user_id = uid ∧
    p.id = a ∧ q.id = b ∧ a < b ∧ minCo ≤ sharedMeetingCount st a b

/-- `MATCH (e:Entity {id: $id, user_id: $user_id})` (first row). -/
def findByIdUser (st : GraphState) (eid uid : String) : Option EntityNode :=
  st.entities.find? (fun e => e.id == eid && e.user_id == uid)

/-- Is there a `Meeting` node with this id? -/
def meetingExists (st : GraphState) (mid : String) : Bool :=
  st.meetings.any (fun m => m.id == mid)

/-- The `MERGE (keep)-[nr:MENTIONED_IN]->(mention.meeting)` row of
`merge_entities`: re-point one mention edge `mn` of the merged entity onto
`keep`; `ON CREATE SET nr = properties(mention.rel)` copies the whole
property map, `ON MATCH SET` sums `mention_count`
(`coalesce(mention.rel.mention_count, 1)`; the property is always present
in edges written by `add_mention`). -/
def transferMention (st : GraphState) (keep_id : String) (mn : MentionEdge) :
    GraphState :=
  if st.mentions.any (mentionMatches keep_id mn.meeting_id) then
    { st with mentions := st.mentions.map (fun r =>
        if mentionMatches keep_id mn.meeting_id r then
          { r with mention_count := r.mention_count + mn.mention_count }
        else r) }
  else
    { st with mentions := st.mentions ++ [{ mn with entity_id := keep_id }] }

/-- The `SET keep.aliases = ..., keep.mention_count = ...` clause of
`merge_entities`, executed once per surviving row; reads of `merge` see the
current transaction state. -/
def applyMergeSet (st : GraphState) (uid keep_id merge_id : String)
    (now : Nat) : GraphState :=
  match st.entities.find? (fun e => e.id == merge_id && e.user_id == uid) with
  | none => st
  | some g =>
    { st with entities := st.entities.map (fun e =>
        if e.id == keep_id && e.user_id == uid then
          { e with
            aliases := e.aliases ++ g.aliases ++ [g.normalized_value],
            mention_count := e.mention_count + g.mention_count,
            updated_at := some now }
        else e) }

/-- `DETACH DELETE merge`: remove the node and every edge touching it. -/
def detachDelete (st : GraphState) (eid uid : String) : GraphState :=
  { st with
    entities := st.entities.filter (fun e => !(e.id == eid && e.user_id == uid)),
    mentions := st.mentions.filter (fun r => !(r.entity_id == eid)),
    rels := st.rels.filter (fun r => !(r.from_id == eid) && !(r.to_id == eid)) }

/-- `EntityOperations.merge_entities`, clause by clause.  After the
`OPTIONAL MATCH` + `collect` + `UNWIND` + `WHERE mention.rel IS NOT NULL`
pipeline the row table holds one row per mention edge of the merged entity
(and is empty when it has none, so the remaining clauses never run and
`run_single_query` returns `None`).  The `MERGE`, the `SET` on `keep` and
the `DETACH DELETE` each execute once per row, in clause order. -/
def merge_entities (st : GraphState) (uid keep_id merge_id : String)
    (now : Nat) : GraphState × Bool :=
  match findByIdUser st keep_id uid, findByIdUser st merge_id uid with
  | some _keep, some g =>
    let rows := st.mentions.filter (fun r =>
      r.entity_id == g.id && meetingExists st r.meeting_id)
    if rows.isEmpty then (st, false)
    else
      let st1 := rows.foldl (fun s mn => transferMention s keep_id mn) st
      let st2 := rows.foldl (fun s _ => applyMergeSet s uid keep_id merge_id now) st1
      (detachDelete st2 merge_id uid, true)
  | _, _ => (st, false)

/-- A grounded entity candidate returned by the extraction step
(services/langextract/schemas.py). -/
structure GroundedEntity where
  type : String
  value : String
  normalized_value : String
  confidence : Rat
  start_offset : Nat
  end_offset : Nat
  source_text : String
  deriving Repr, DecidableEq

/-- One raw LangExtract extraction as read by `extract_entities`. -/
structure Extraction where
  extraction_class : Option String
  extraction_text : Option String
  attributes : List (String × String)
  char_interval : Option (Nat × Nat)
  alignment_status : Option String
  deriving Repr, DecidableEq

/-- The confidence assignment of `extract_entities`: 1.0 for `EXACT`
alignment, 0.85 for `APPROXIMATE`, 0.8 otherwise. -/
def alignConfidence (als : Option String) : Rat :=
  match als with
  | some a => if a == "EXACT" then 1 else if a == "APPROXIMATE" then 0.85 else 0.8
  | none => 0.8

/-- The per-extraction conversion loop body of `extract_entities`. -/
def toGroundedEntity (ex : Extraction) : GroundedEntity :=
  let entity_type := ex.extraction_class.getD "topic"
  let entity_value := ex.extraction_text.getD ""
  let normalized :=
    pyLower (((ex.attributes.find? (fun p => p.1 == "normalized_value")).map Prod.snd).getD
      entity_value)
  { type := entity_type,
    value := entity_value,
    normalized_value := normalized,
    confidence := alignConfidence ex.alignment_status,
    start_offset := ((ex.char_interval.map Prod.fst).getD 0),
    end_offset := ((ex.char_interval.map Prod.snd).getD 0),
    source_text := entity_value }

/-- The confidence filter of `extract_entities`:
`[e for e in entities if e.confidence >= min_confidence]`. -/
def filterByConfidence (entities : List GroundedEntity) (min_confidence : Rat) :
    List GroundedEntity :=
  entities.filter (fun e => decide (min_confidence ≤ e.confidence))

/-- Default of the `MIN_CONFIDENCE` environment variable. -/
def MIN_CONFIDENCE_DEFAULT : Rat := 0.7

/-- The post-processing of `extract_entities`: convert each raw extraction
and drop the candidates below the confidence threshold. -/
def extract_entities_post (extractions : List Extraction)
    (min_confidence : Rat) : List GroundedEntity :=
  filterByConfidence (extractions.map toGroundedEntity) min_confidence

/-! ## Concrete instances used by witnesses and counterexamples -/

/-- A stored entity node with fixed owner `"u"` and defaulted optional fields. -/
def mkEntityNode (i lbl norm : String) (cnt : Int) (ls : Nat) : EntityNode :=
  { id := i, user_id := "u", label := lbl, normalized_value := norm,
    display_value := norm, aliases := [], description := none,
    mention_count := cnt, confidence := 1, first_seen := 0, last_seen := ls,
    sentiment_avg := none, is_user_created := false, created_at := none,
    updated_at := none }

/-- A meeting node with owner `"u"`. -/
def mkMeeting (i : String) : MeetingNode := { id := i, user_id := "u", title := i }

/-- A stored mention edge with defaulted optional fields. -/
def mkMentionEdge (e m : String) (cnt : Int) : MentionEdge :=
  { entity_id := e, meeting_id := m, context := "ctx", timestamp_start := none,
    timestamp_end := none, speaker := none, mention_count := cnt,
    sentiment := none, created_at := none, updated_at := none }

/-- An `Entity` input value with owner `"u"`. -/
def mkEntityInput (i ty norm : String) (cnt : Int) (ls : Nat)
    (al : List String) : Entity :=
  { id := i, user_id := "u", type := ty, normalized_value := norm,
    display_value := norm, aliases := al, description := none,
    mention_count := cnt, confidence := 1, first_seen := 0, last_seen := ls,
    sentiment_avg := none, is_user_created := false }

/-- An `EntityMention` input value. -/
def mkMentionInput (e m : String) (cnt : Int) : EntityMention :=
  { entity_id := e, meeting_id := m, context := "ctx", timestamp_start := none,
    timestamp_end := none, speaker := none, mention_count := cnt,
    sentiment := none }

/-- The empty graph. -/
def stEmpty : GraphState := { entities := [], meetings := [], mentions := [], rels := [] }

/-- Two upsert calls for the key (`"u"`, person, `"dani"`) with deltas 1 and 2. -/
def c1Calls : List (Entity × String × Nat) :=
  [(mkEntityInput "e1" "person" "Dani" 1 5 [], "f1", 1),
   (mkEntityInput "" "person" "DANI" 2 6 [], "f2", 2)]

/-- A keep entity (count 10) and a merge entity (count 4) whose merge entity
has two mention edges, to meetings `"m1"` and `"m2"`. -/
def c2State : GraphState :=
  { entities := [mkEntityNode "k" "Person" "kk" 10 0,
                 { mkEntityNode "g" "Person" "gg" 4 0 with aliases := ["ga"] }],
    meetings := [mkMeeting "m1", mkMeeting "m2"],
    mentions := [mkMentionEdge "g" "m1" 2, mkMentionEdge "g" "m2" 3],
    rels := [] }

/-- Same keep/merge pair but the merge entity has no mention edge. -/
def c10State : GraphState := { c2State with mentions := [] }

/-- An organization node and a person node. -/
def c3State : GraphState :=
  { entities := [mkEntityNode "o1" "Organization" "acme" 1 0,
                 mkEntityNode "p1" "Person" "dani" 1 0],
    meetings := [], mentions := [], rels := [] }

/-- An Organization→Person relationship of type `USES` (not in the table). -/
def c3Rel : EntityRelationship :=
  { from_entity_id := "o1", to_entity_id := "p1", relationship_type := "USES",
    confidence := 1, source := "ai", properties := [] }

/-- A Person→Organization relationship of type `WORKS_AT`. -/
def c4Rel : EntityRelationship :=
  { from_entity_id := "p1", to_entity_id := "o1",
    relationship_type := "WORKS_AT", confidence := 1, source := "ai",
    properties := [] }

/-- One stored person entity with `last_seen = 10`. -/
def c5State : GraphState :=
  { entities := [mkEntityNode "k" "Person" "kk" 10 10],
    meetings := [], mentions := [], rels := [] }

/-- An upsert input for the same key carrying `last_seen = 5` and one alias. -/
def c5Input : Entity := mkEntityInput "x" "person" "KK" 1 5 ["al"]

/-- One person entity and one meeting, no mention edge yet. -/
def c6State : GraphState :=
  { entities := [mkEntityNode "a" "Person" "a" 1 0],
    meetings := [mkMeeting "m1"], mentions := [], rels := [] }

/-- Two person entities sharing three meetings. -/
def c8State : GraphState :=
  { entities := [mkEntityNode "a" "Person" "a" 1 0, mkEntityNode "b" "Person" "b" 1 0],
    meetings := [mkMeeting "m1", mkMeeting "m2", mkMeeting "m3"],
    mentions := [mkMentionEdge "a" "m1" 1, mkMentionEdge "b" "m1" 1,
                 mkMentionEdge "a" "m2" 1, mkMentionEdge "b" "m2" 1,
                 mkMentionEdge "a" "m3" 1, mkMentionEdge "b" "m3" 1],
    rels := [] }

/-! ## General list helpers -/

theorem filter_map_stable {α : Type} (p : α → Bool) (f : α → α)
    (h : ∀ a, p (f a) = p a) :
    ∀ l : List α, (l.map f).filter p = (l.filter p).map f := by
  intro l
  induction l with
  | nil => rfl
  | cons a t ih =>
    cases hp : p a with
    | false => simp [List.filter_cons, h a, hp, ih]
    | true => simp [List.filter_cons, h a, hp, ih]

theorem find?_of_filter_singleton {α : Type} (p : α → Bool) (a : α) :
    ∀ l : List α, l.filter p = [a] → l.find? p = some a := by
  intro l
  induction l with
  | nil => intro h; simp at h
  | cons b t ih =>
    intro h
    cases hp : p b with
    | false =>
      rw [List.filter_cons, if_neg (by simp [hp])] at h
      rw [List.find?_cons, hp]
      exact ih h
    | true =>
      rw [List.filter_cons, if_pos (by simp [hp])] at h
      rw [List.find?_cons, hp]
      exact congrArg some (List.cons_eq_cons.mp h).1

theorem filter_nil_of_any_false {α : Type} (p : α → Bool) (l : List α)
    (h : l.any p = false) : l.filter p = [] := by
  rw [List.filter_eq_nil_iff]
  intro a ha
  have := List.any_eq_false.mp h a ha
  simp [this]

/-! ## Key stability of the upsert update -/

theorem matchKey_onMatchUpdate (l u n : String) (ent : Entity) (now : Nat)
    (e : EntityNode) :
    entityMatchesKey l u n (onMatchUpdate ent now e) = entityMatchesKey l u n e := rfl

theorem matchKey_upd (l u n lbl uid norm : String) (ent : Entity) (now : Nat)
    (e : EntityNode) :
    entityMatchesKey l u n
      (if entityMatchesKey lbl uid norm e then onMatchUpdate ent now e else e)
      = entityMatchesKey l u n e := by
  cases h : entityMatchesKey lbl uid norm e <;> simp [h, matchKey_onMatchUpdate]

/-- A matched `upsert_entity` call: the stored entity for the key is the
`ON MATCH SET` update of the previous one, and it is also the returned row. -/
theorem upsert_entity_on_match (st : GraphState) (ent : Entity)
    (fid : String) (now : Nat) (lbl uid norm : String) (e0 : EntityNode)
    (hl : pyCapitalize ent.type = lbl) (hu : ent.user_id = uid)
    (hn : pyLower ent.normalized_value = norm)
    (hf : st.entities.filter (entityMatchesKey lbl uid norm) = [e0]) :
    (upsert_entity st ent fid now).1.entities.filter (entityMatchesKey lbl uid norm)
        = [onMatchUpdate ent now e0]
      ∧ (upsert_entity st ent fid now).2 = some (onMatchUpdate ent now e0) := by
  have he0 : e0 ∈ st.entities.filter (entityMatchesKey lbl uid norm) := by
    rw [hf]; exact List.mem_singleton.mpr rfl
  have hmem := List.mem_filter.mp he0
  have hany : st.entities.any (entityMatchesKey lbl uid norm) = true :=
    List.any_eq_true.mpr ⟨e0, hmem.1, hmem.2⟩
  have hk0 : entityMatchesKey lbl uid norm e0 = true := hmem.2
  unfold upsert_entity
  rw [hl, hu, hn]
  simp only [hany, if_true]
  constructor
  · rw [filter_map_stable _ _ (matchKey_upd lbl uid norm lbl uid norm ent now), hf]
    simp [hk0]
  · rw [find?_of_filter_singleton _ _ _ hf]
    simp [hk0]

/-- Folding same-key upserts over a state holding exactly one entity for the
key keeps exactly one and accumulates every delta. -/
theorem upsertMany_on_match (lbl uid norm : String) :
    ∀ (calls : List (Entity × String × Nat)) (st : GraphState) (e0 : EntityNode),
    (∀ c ∈ calls, pyCapitalize c.1.type = lbl ∧ c.1.user_id = uid ∧
        pyLower c.1.normalized_value = norm) →
    st.entities.filter (entityMatchesKey lbl uid norm) = [e0] →
    ∃ e1, (upsertMany st calls).entities.filter (entityMatchesKey lbl uid norm) = [e1]
      ∧ e1.mention_count
          = e0.mention_count + (calls.map (fun c => c.1.mention_count)).sum := by
  intro calls
  induction calls with
  | nil =>
    intro st e0 _ hf
    exact ⟨e0, hf, by simp⟩
  | cons c rest ih =>
    intro st e0 hkey hf
    obtain ⟨hl, hu, hn⟩ := hkey c (List.mem_cons_self c rest)
    have hstep := upsert_entity_on_match st c.1 c.2.1 c.2.2 lbl uid norm e0 hl hu hn hf
    have hrest : ∀ d ∈ rest, pyCapitalize d.1.type = lbl ∧ d.1.user_id = uid ∧
        pyLower d.1.normalized_value = norm :=
      fun d hd => hkey d (List.mem_cons_of_mem c hd)
    obtain ⟨e1, hfe1, hcnt⟩ :=
      ih ((upsert_entity st c.1 c.2.1 c.2.2).1) (onMatchUpdate c.1 c.2.2 e0) hrest hstep.1
    refine ⟨e1, ?_, ?_⟩
    · simpa [upsertMany] using hfe1
    · rw [hcnt]
      simp [onMatchUpdate]
      ring

/-- An unmatched `upsert_entity` call creates the single entity for the key,
with `mention_count` equal to the call's delta. -/
theorem upsert_entity_on_create (st : GraphState) (ent : Entity)
    (fid : String) (now : Nat) (lbl uid norm : String)
    (hl : pyCapitalize ent.type = lbl) (hu : ent.user_id = uid)
    (hn : pyLower ent.normalized_value = norm)
    (hpre : st.entities.filter (entityMatchesKey lbl uid norm) = []) :
    ∃ e1, (upsert_entity st ent fid now).1.entities.filter
        (entityMatchesKey lbl uid norm) = [e1]
      ∧ e1.mention_count = ent.mention_count := by
  have hany : st.entities.any (entityMatchesKey lbl uid norm) = false := by
    cases h : st.entities.any (entityMatchesKey lbl uid norm) with
    | false => rfl
    | true =>
      obtain ⟨x, hx, hkx⟩ := List.any_eq_true.mp h
      have hmem : x ∈ st.entities.filter (entityMatchesKey lbl uid norm) :=
        List.mem_filter.mpr ⟨hx, hkx⟩
      rw [hpre] at hmem
      simp at hmem
  refine ⟨{ id := if ent.id == "" then fid else ent.id,
            user_id := uid,
            label := lbl,
            normalized_value := norm,
            display_value := ent.display_value,
            aliases := ent.aliases,
            description := ent.description,
            mention_count := ent.mention_count,
            confidence := ent.confidence,
            first_seen := ent.first_seen,
            last_seen := ent.last_seen,
            sentiment_avg := ent.sentiment_avg,
            is_user_created := ent.is_user_created,
            created_at := some now,
            updated_at := none }, ?_, rfl⟩
  unfold upsert_entity
  rw [hl, hu, hn]
  simp only [hany, Bool.false_eq_true, if_false]
  rw [List.filter_append, hpre]
  simp [entityMatchesKey]

theorem filter_append_singleton_le {α : Type} (p : α → Bool) (xs : List α) (x : α)
    (h : (xs.filter p).length ≤ 1)
    (hx : p x = true → xs.filter p = []) :
    ((xs ++ [x]).filter p).length ≤ 1 := by
  rw [List.filter_append]
  cases hpx : p x with
  | true => rw [hx hpx]; simp [List.filter_cons, hpx]
  | false => simpa [List.filter_cons, hpx] using h

/-- `upsert_entity` preserves "at most one live entity per key", for every
key. -/
theorem upsert_preserves_at_most_one
    (st : GraphState) (ent : Entity) (fid : String) (now : Nat) (l u n : String)
    (h : (st.entities.filter (entityMatchesKey l u n)).length ≤ 1) :
    ((upsert_entity st ent fid now).1.entities.filter
      (entityMatchesKey l u n)).length ≤ 1 := by
  unfold upsert_entity
  cases hany : st.entities.any (entityMatchesKey (pyCapitalize ent.type)
      ent.user_id (pyLower ent.normalized_value)) with
  | true =>
    simp only [hany, if_true]
    rw [filter_map_stable _ _ (matchKey_upd l u n _ _ _ ent now)]
    simpa using h
  | false =>
    simp only [hany, Bool.false_eq_true, if_false]
    apply filter_append_singleton_le _ _ _ h
    intro hknew
    simp only [entityMatchesKey, Bool.and_eq_true, beq_iff_eq] at hknew
    obtain ⟨⟨hcl, hcu⟩, hcn⟩ := hknew
    rw [← hcl, ← hcu, ← hcn]
    exact filter_nil_of_any_false _ _ hany

/-- C1: for every owner, entity type and normalized value, at most one live
entity exists for the key (third conjunct: every single `upsert_entity` call
preserves at-most-one-per-key, for every key), and `upsert_entity` — which
is one atomic `MERGE` match-or-create statement, never a separate read
followed by a write — makes any sequence of upsert calls for the same key
starting from a key-free state converge to exactly one stored entity whose
`mention_count` is the sum of all applied deltas. -/
theorem upsert_entity_same_key_unique
    (st0 : GraphState) (calls : List (Entity × String × Nat))
    (lbl uid norm : String)
    (hkey : ∀ c ∈ calls, pyCapitalize c.1.type = lbl ∧ c.1.user_id = uid ∧
        pyLower c.1.normalized_value = norm)
    (hpre : st0.entities.filter (entityMatchesKey lbl uid norm) = [])
    (hne : calls ≠ []) :
    ((upsertMany st0 calls).entities.filter (entityMatchesKey lbl uid norm)).length = 1
    ∧ (∀ e ∈ (upsertMany st0 calls).entities,
        entityMatchesKey lbl uid norm e = true →
        e.mention_count = (calls.map (fun c => c.1.mention_count)).sum)
    ∧ (∀ (st : GraphState) (ent : Entity) (fid : String) (now : Nat)
          (l u n : String),
        (st.entities.filter (entityMatchesKey l u n)).length ≤ 1 →
        ((upsert_entity st ent fid now).1.entities.filter
          (entityMatchesKey l u n)).length ≤ 1) := by
  cases calls with
  | nil => exact absurd rfl hne
  | cons c rest =>
    obtain ⟨hl, hu, hn⟩ := hkey c (List.mem_cons_self c rest)
    obtain ⟨e1, hf1, hc1⟩ :=
      upsert_entity_on_create st0 c.1 c.2.1 c.2.2 lbl uid norm hl hu hn hpre
    obtain ⟨e2, hf2, hc2⟩ :=
      upsertMany_on_match lbl uid norm rest (upsert_entity st0 c.1 c.2.1 c.2.2).1 e1
        (fun d hd => hkey d (List.mem_cons_of_mem c hd)) hf1
    have hMany : upsertMany st0 (c :: rest)
        = upsertMany (upsert_entity st0 c.1 c.2.1 c.2.2).1 rest := rfl
    refine ⟨?_, ?_, ?_⟩
    · rw [hMany, hf2]
      rfl
    · intro e he hke
      have hmemf : e ∈ (upsertMany st0 (c :: rest)).entities.filter
          (entityMatchesKey lbl uid norm) := List.mem_filter.mpr ⟨he, hke⟩
      rw [hMany, hf2] at hmemf
      have he2 : e = e2 := List.mem_singleton.mp hmemf
      rw [he2, hc2, hc1, List.map_cons, List.sum_cons]
    · intro st ent fid now l u n hlen
      exact upsert_preserves_at_most_one st ent fid now l u n hlen

/-- Witness for C1 at a concrete input: two same-key upserts with deltas 1
and 2 on the empty graph. -/
theorem upsert_entity_same_key_unique_witness :
    (∀ c ∈ c1Calls, pyCapitalize c.1.type = "Person" ∧ c.1.user_id = "u" ∧
        pyLower c.1.normalized_value = "dani")
    ∧ stEmpty.entities.filter (entityMatchesKey "Person" "u" "dani") = []
    ∧ c1Calls ≠ []
    ∧ (((upsertMany stEmpty c1Calls).entities.filter
          (entityMatchesKey "Person" "u" "dani")).length = 1
      ∧ (∀ e ∈ (upsertMany stEmpty c1Calls).entities,
          entityMatchesKey "Person" "u" "dani" e = true →
          e.mention_count = (c1Calls.map (fun c => c.1.mention_count)).sum)
      ∧ (∀ (st : GraphState) (ent : Entity) (fid : String) (now : Nat)
            (l u n : String),
          (st.entities.filter (entityMatchesKey l u n)).length ≤ 1 →
          ((upsert_entity st ent fid now).1.entities.filter
            (entityMatchesKey l u n)).length ≤ 1)) :=
  ⟨by decide, by decide, by decide,
    upsert_entity_same_key_unique stEmpty c1Calls "Person" "u" "dani"
      (by decide) (by decide) (by decide)⟩

/-- C5 counterexample: an upsert that matches an entity with
`last_seen = 10` while carrying `last_seen = 5` stores 5, not
`max 10 5 = 10` — the `ON MATCH SET` overwrites `last_seen`
unconditionally. -/
theorem upsert_entity_last_seen_cex :
    ((upsert_entity c5State c5Input "f" 7).2.map (fun r => r.last_seen)) = some 5
    ∧ (5 : Nat) ≠ max 10 5 := by decide

/-- C5 (amended): on a matched upsert, `mention_count` grows by exactly the
given delta, `last_seen` is overwritten with the given timestamp (not the
maximum of existing and given), the aliases become the union of existing
and given ones (re-adding an existing alias changes nothing), and
`display_value`, `description`, `confidence`, `first_seen` and
`is_user_created` are unchanged. -/
theorem upsert_entity_on_match_fields
    (st : GraphState) (ent : Entity) (fid : String) (now : Nat)
    (lbl uid norm : String) (e0 : EntityNode)
    (hl : pyCapitalize ent.type = lbl) (hu : ent.user_id = uid)
    (hn : pyLower ent.normalized_value = norm)
    (hf : st.entities.filter (entityMatchesKey lbl uid norm) = [e0]) :
    ∃ r, (upsert_entity st ent fid now).2 = some r
      ∧ (upsert_entity st ent fid now).1.entities.filter
          (entityMatchesKey lbl uid norm) = [r]
      ∧ r.mention_count = e0.mention_count + ent.mention_count
      ∧ r.last_seen = ent.last_seen
      ∧ (∀ a, a ∈ r.aliases ↔ (a ∈ e0.aliases ∨ a ∈ ent.aliases))
      ∧ ((∀ a ∈ ent.aliases, a ∈ e0.aliases) → r.aliases = e0.aliases)
      ∧ r.display_value = e0.display_value
      ∧ r.description = e0.description
      ∧ r.confidence = e0.confidence
      ∧ r.first_seen = e0.first_seen
      ∧ r.is_user_created = e0.is_user_created := by
  obtain ⟨hfilt, hret⟩ :=
    upsert_entity_on_match st ent fid now lbl uid norm e0 hl hu hn hf
  refine ⟨onMatchUpdate ent now e0, hret, hfilt, rfl, rfl, ?_, ?_,
    rfl, rfl, rfl, rfl, rfl⟩
  · intro a
    simp only [onMatchUpdate]
    by_cases hc :
        0 < (ent.aliases.filter (fun x => !(e0.aliases.contains x))).length
    · rw [if_pos hc]
      simp only [List.mem_append, List.mem_filter, List.elem_eq_mem,
        Bool.not_eq_eq_eq_not, Bool.not_true, decide_eq_false_iff_not]
      tauto
    · rw [if_neg hc]
      have hnil : ent.aliases.filter (fun x => !(e0.aliases.contains x)) = [] := by
        cases hq : ent.aliases.filter (fun x => !(e0.aliases.contains x)) with
        | nil => rfl
        | cons y ys => rw [hq] at hc; simp at hc
      have hall := List.filter_eq_nil_iff.mp hnil
      constructor
      · exact fun ha => Or.inl ha
      · rintro (ha | ha)
        · exact ha
        · have := hall a ha
          simpa using this
  · intro hsub
    simp only [onMatchUpdate]
    rw [if_neg]
    intro hc
    have hnil : ent.aliases.filter (fun x => !(e0.aliases.contains x)) = [] := by
      rw [List.filter_eq_nil_iff]
      intro a ha
      simp [hsub a ha]
    rw [hnil] at hc
    simp at hc

/-- Witness for C5's amended theorem at a concrete matched upsert. -/
theorem upsert_entity_on_match_fields_witness :
    pyCapitalize c5Input.type = "Person"
    ∧ c5Input.user_id = "u"
    ∧ pyLower c5Input.normalized_value = "kk"
    ∧ c5State.entities.filter (entityMatchesKey "Person" "u" "kk")
        = [mkEntityNode "k" "Person" "kk" 10 10]
    ∧ (∃ r, (upsert_entity c5State c5Input "f" 7).2 = some r
      ∧ (upsert_entity c5State c5Input "f" 7).1.entities.filter
          (entityMatchesKey "Person" "u" "kk") = [r]
      ∧ r.mention_count = (mkEntityNode "k" "Person" "kk" 10 10).mention_count
          + c5Input.mention_count
      ∧ r.last_seen = c5Input.last_seen
      ∧ (∀ a, a ∈ r.aliases ↔
          (a ∈ (mkEntityNode "k" "Person" "kk" 10 10).aliases ∨ a ∈ c5Input.aliases))
      ∧ ((∀ a ∈ c5Input.aliases, a ∈ (mkEntityNode "k" "Person" "kk" 10 10).aliases) →
          r.aliases = (mkEntityNode "k" "Person" "kk" 10 10).aliases)
      ∧ r.display_value = (mkEntityNode "k" "Person" "kk" 10 10).display_value
      ∧ r.description = (mkEntityNode "k" "Person" "kk" 10 10).description
      ∧ r.confidence = (mkEntityNode "k" "Person" "kk" 10 10).confidence
      ∧ r.first_seen = (mkEntityNode "k" "Person" "kk" 10 10).first_seen
      ∧ r.is_user_created = (mkEntityNode "k" "Person" "kk" 10 10).is_user_created) :=
  ⟨by decide, by decide, by decide, by decide,
    upsert_entity_on_match_fields c5State c5Input "f" 7 "Person" "u" "kk"
      (mkEntityNode "k" "Person" "kk" 10 10)
      (by decide) (by decide) (by decide) (by decide)⟩

/-! ## add_mention lemmas -/

theorem mentionMatches_upd (a b eid mid : String) (mn : EntityMention)
    (t : Nat) (r : MentionEdge) :
    mentionMatches a b
      (if mentionMatches eid mid r then mentionOnMatch mn t r else r)
      = mentionMatches a b r := by
  cases h : mentionMatches eid mid r <;> simp [h, mentionOnMatch, mentionMatches]

theorem add_mention_create (st : GraphState) (mention : EntityMention) (now : Nat)
    (hent : st.entities.any (fun e => e.id == mention.entity_id) = true)
    (hmeet : st.meetings.any (fun m => m.id == mention.meeting_id) = true)
    (hno : st.mentions.any (mentionMatches mention.entity_id mention.meeting_id) = false) :
    add_mention st mention now
      = ({ st with mentions := st.mentions ++ [mentionOnCreate mention now] }, true) := by
  unfold add_mention
  rw [hent, hmeet, hno]
  simp

theorem add_mention_match (st : GraphState) (mention : EntityMention) (now : Nat)
    (hent : st.entities.any (fun e => e.id == mention.entity_id) = true)
    (hmeet : st.meetings.any (fun m => m.id == mention.meeting_id) = true)
    (hyes : st.mentions.any (mentionMatches mention.entity_id mention.meeting_id) = true) :
    add_mention st mention now
      = ({ st with mentions := st.mentions.map (fun r =>
            if mentionMatches mention.entity_id mention.meeting_id r then
              mentionOnMatch mention now r
            else r) }, true) := by
  unfold add_mention
  rw [hent, hmeet, hyes]
  simp

theorem add_mention_preserves_at_most_one (s : GraphState) (mn : EntityMention)
    (t : Nat) (a b : String)
    (h : (s.mentions.filter (mentionMatches a b)).length ≤ 1) :
    ((add_mention s mn t).1.mentions.filter (mentionMatches a b)).length ≤ 1 := by
  unfold add_mention
  cases hcond : (s.entities.any (fun e => e.id == mn.entity_id) &&
      s.meetings.any (fun m => m.id == mn.meeting_id)) with
  | false => simpa [hcond] using h
  | true =>
    cases hyes : s.mentions.any (mentionMatches mn.entity_id mn.meeting_id) with
    | true =>
      simp only [hcond, hyes, if_true]
      rw [filter_map_stable _ _ (mentionMatches_upd a b mn.entity_id mn.meeting_id mn t)]
      simpa using h
    | false =>
      simp only [hcond, hyes, Bool.false_eq_true, if_false, if_true]
      apply filter_append_singleton_le _ _ _ h
      intro hx
      simp only [mentionMatches, mentionOnCreate, Bool.and_eq_true, beq_iff_eq] at hx
      obtain ⟨hxa, hxb⟩ := hx
      rw [← hxa, ← hxb]
      exact filter_nil_of_any_false _ _ hyes

/-- C6: `add_mention` keeps at most one `MENTIONED_IN` edge per
(entity, meeting) pair (last conjunct, for every state and pair), and two
delta-1 calls for the same fresh pair leave exactly one edge whose
`mention_count` is 2 and whose context, timestamps, speaker and sentiment
are the first call's values. -/
theorem add_mention_accumulates
    (st : GraphState) (m1 m2 : EntityMention) (t1 t2 : Nat) (eid mid : String)
    (h1 : m1.entity_id = eid ∧ m1.meeting_id = mid ∧ m1.mention_count = 1)
    (h2 : m2.entity_id = eid ∧ m2.meeting_id = mid ∧ m2.mention_count = 1)
    (hent : st.entities.any (fun e => e.id == eid) = true)
    (hmeet : st.meetings.any (fun m => m.id == mid) = true)
    (hnone : st.mentions.filter (mentionMatches eid mid) = []) :
    (add_mention st m1 t1).2 = true
    ∧ (add_mention (add_mention st m1 t1).1 m2 t2).2 = true
    ∧ (∃ r, (add_mention (add_mention st m1 t1).1 m2 t2).1.mentions.filter
          (mentionMatches eid mid) = [r]
        ∧ r.mention_count = 2
        ∧ r.context = m1.context
        ∧ r.timestamp_start = m1.timestamp_start
        ∧ r.timestamp_end = m1.timestamp_end
        ∧ r.speaker = m1.speaker
        ∧ r.sentiment = m1.sentiment)
    ∧ (∀ (s : GraphState) (mn : EntityMention) (t : Nat) (a b : String),
        (s.mentions.filter (mentionMatches a b)).length ≤ 1 →
        ((add_mention s mn t).1.mentions.filter (mentionMatches a b)).length ≤ 1) := by
  obtain ⟨h1e, h1m, h1c⟩ := h1
  obtain ⟨h2e, h2m, h2c⟩ := h2
  have hany1 : st.mentions.any (mentionMatches m1.entity_id m1.meeting_id) = false := by
    rw [h1e, h1m]
    cases hq : st.mentions.any (mentionMatches eid mid) with
    | false => rfl
    | true =>
      obtain ⟨x, hx, hkx⟩ := List.any_eq_true.mp hq
      have : x ∈ st.mentions.filter (mentionMatches eid mid) :=
        List.mem_filter.mpr ⟨hx, hkx⟩
      rw [hnone] at this
      simp at this
  have hstep1 := add_mention_create st m1 t1 (by rw [h1e]; exact hent)
    (by rw [h1m]; exact hmeet) hany1
  have hnew : mentionMatches eid mid (mentionOnCreate m1 t1) = true := by
    simp [mentionMatches, mentionOnCreate, h1e, h1m]
  have hst1m : (add_mention st m1 t1).1.mentions
      = st.mentions ++ [mentionOnCreate m1 t1] := by rw [hstep1]
  have hany2 : (add_mention st m1 t1).1.mentions.any
      (mentionMatches m2.entity_id m2.meeting_id) = true := by
    rw [h2e, h2m, hst1m]
    exact List.any_eq_true.mpr ⟨mentionOnCreate m1 t1, by simp, hnew⟩
  have hstep2 := add_mention_match (add_mention st m1 t1).1 m2 t2
    (by rw [h2e, hstep1]; exact hent) (by rw [h2m, hstep1]; exact hmeet) hany2
  refine ⟨by rw [hstep1], by rw [hstep2], ?_, ?_⟩
  · refine ⟨mentionOnMatch m2 t2 (mentionOnCreate m1 t1), ?_, ?_, rfl, rfl, rfl, rfl, rfl⟩
    · rw [hstep2]
      simp only
      rw [filter_map_stable _ _ (mentionMatches_upd eid mid m2.entity_id m2.meeting_id m2 t2),
        hst1m, List.filter_append, hnone, List.nil_append, List.filter_cons, if_pos hnew]
      simp only [List.filter_nil, List.map_cons, List.map_nil]
      rw [h2e, h2m, if_pos hnew]
    · simp only [mentionOnMatch, mentionOnCreate]
      rw [h1c, h2c]
      decide
  · intro s mn t a b h
    exact add_mention_preserves_at_most_one s mn t a b h

/-- Witness for C6: two delta-1 `add_mention` calls for the pair
(`"a"`, `"m1"`) on a graph holding that entity and meeting and no edge. -/
theorem add_mention_accumulates_witness :
    ((mkMentionInput "a" "m1" 1).entity_id = "a"
      ∧ (mkMentionInput "a" "m1" 1).meeting_id = "m1"
      ∧ (mkMentionInput "a" "m1" 1).mention_count = 1)
    ∧ c6State.entities.any (fun e => e.id == "a") = true
    ∧ c6State.meetings.any (fun m => m.id == "m1") = true
    ∧ c6State.mentions.filter (mentionMatches "a" "m1") = []
    ∧ ((add_mention c6State (mkMentionInput "a" "m1" 1) 1).2 = true
      ∧ (add_mention (add_mention c6State (mkMentionInput "a" "m1" 1) 1).1
          (mkMentionInput "a" "m1" 1) 2).2 = true
      ∧ (∃ r, (add_mention (add_mention c6State (mkMentionInput "a" "m1" 1) 1).1
            (mkMentionInput "a" "m1" 1) 2).1.mentions.filter
            (mentionMatches "a" "m1") = [r]
          ∧ r.mention_count = 2
          ∧ r.context = (mkMentionInput "a" "m1" 1).context
          ∧ r.timestamp_start = (mkMentionInput "a" "m1" 1).timestamp_start
          ∧ r.timestamp_end = (mkMentionInput "a" "m1" 1).timestamp_end
          ∧ r.speaker = (mkMentionInput "a" "m1" 1).speaker
          ∧ r.sentiment = (mkMentionInput "a" "m1" 1).sentiment)
      ∧ (∀ (s : GraphState) (mn : EntityMention) (t : Nat) (a b : String),
          (s.mentions.filter (mentionMatches a b)).length ≤ 1 →
          ((add_mention s mn t).1.mentions.filter (mentionMatches a b)).length ≤ 1)) :=
  ⟨⟨by decide, by decide, by decide⟩, by decide, by decide, by decide,
    add_mention_accumulates c6State (mkMentionInput "a" "m1" 1)
      (mkMentionInput "a" "m1" 1) 1 2 "a" "m1"
      ⟨by decide, by decide, by decide⟩ ⟨by decide, by decide, by decide⟩
      (by decide) (by decide) (by decide)⟩

/-- C7: `add_mention` on a missing entity or meeting returns the not-found
result `false` and creates nothing — the state is unchanged. -/
theorem add_mention_missing_endpoint (st : GraphState) (mention : EntityMention)
    (now : Nat)
    (h : st.entities.any (fun e => e.id == mention.entity_id) = false
       ∨ st.meetings.any (fun m => m.id == mention.meeting_id) = false) :
    add_mention st mention now = (st, false) := by
  unfold add_mention
  rcases h with h | h <;> simp [h]

/-- Witness for C7: an `add_mention` naming an entity id absent from the
graph leaves the graph unchanged and reports failure. -/
theorem add_mention_missing_endpoint_witness :
    c6State.entities.any (fun e => e.id == (mkMentionInput "zz" "m1" 1).entity_id) = false
    ∧ add_mention c6State (mkMentionInput "zz" "m1" 1) 3 = (c6State, false) :=
  ⟨by decide,
    add_mention_missing_endpoint c6State (mkMentionInput "zz" "m1" 1) 3
      (Or.inl (by decide))⟩

/-! ## create_relationship lemmas -/

theorem create_relationship_ok (st : GraphState) (rel : EntityRelationship)
    (hfrom : st.entities.any (fun e => e.id == rel.from_entity_id) = true)
    (hto : st.entities.any (fun e => e.id == rel.to_entity_id) = true) :
    create_relationship st rel
      = ({ st with rels := st.rels ++ [newRelEdge rel] }, true) := by
  unfold create_relationship
  rw [hfrom, hto]
  simp

/-- C3 (code bug): the engine performs no type validation.  For the
ordered endpoint-type pair (Organization, Person) the compatibility table
allows nothing — in particular not `USES` — yet `create_relationship`
succeeds and stores the edge instead of rejecting the call. -/
theorem create_relationship_no_type_validation :
    ((allowedRelTypes ("Organization", "Person")).contains "USES") = false
    ∧ (create_relationship c3State c3Rel).2 = true
    ∧ ((create_relationship c3State c3Rel).1.rels.filter
        (fun r => r.from_id == "o1" && r.to_id == "p1" && r.rel_type == "USES")).length
      = 1 := by decide

/-- C4 counterexample: two `create_relationship` calls for the same
(from, to, type) triple leave two parallel edges of that type, not one. -/
theorem create_relationship_twice_duplicates_cex :
    ((create_relationship (create_relationship c3State c4Rel).1 c4Rel).1.rels.filter
      (fun r => r.from_id == "p1" && r.to_id == "o1" && r.rel_type == "WORKS_AT")).length
      = 2
    ∧ (2 : Nat) ≠ 1 := by decide

/-- C4 (amended): `create_relationship` is not idempotent in the edge
identity: every call on existing endpoints appends a fresh edge, so two
calls for the same (from, to, type) triple add two parallel edges of that
type; nothing is updated in place. -/
theorem create_relationship_not_idempotent
    (st : GraphState) (rel : EntityRelationship)
    (hfrom : st.entities.any (fun e => e.id == rel.from_entity_id) = true)
    (hto : st.entities.any (fun e => e.id == rel.to_entity_id) = true) :
    (create_relationship st rel).2 = true
    ∧ (create_relationship (create_relationship st rel).1 rel).2 = true
    ∧ ((create_relationship (create_relationship st rel).1 rel).1.rels.filter
        (fun r => r.from_id == rel.from_entity_id && r.to_id == rel.to_entity_id &&
          r.rel_type == rel.relationship_type)).length
      = (st.rels.filter (fun r => r.from_id == rel.from_entity_id &&
          r.to_id == rel.to_entity_id && r.rel_type == rel.relationship_type)).length
        + 2 := by
  have h1 := create_relationship_ok st rel hfrom hto
  have hfrom2 : (create_relationship st rel).1.entities.any
      (fun e => e.id == rel.from_entity_id) = true := by rw [h1]; exact hfrom
  have hto2 : (create_relationship st rel).1.entities.any
      (fun e => e.id == rel.to_entity_id) = true := by rw [h1]; exact hto
  have h2 := create_relationship_ok (create_relationship st rel).1 rel hfrom2 hto2
  have hmatch : (fun r => r.from_id == rel.from_entity_id &&
      r.to_id == rel.to_entity_id && r.rel_type == rel.relationship_type)
      (newRelEdge rel) = true := by simp [newRelEdge]
  refine ⟨by rw [h1], by rw [h2], ?_⟩
  rw [h2]
  simp only
  rw [h1]
  simp only
  rw [List.filter_append, List.filter_append, List.filter_cons, if_pos hmatch]
  simp

/-- Witness for C4's amended theorem: duplicating a Person→Organization
`WORKS_AT` edge on a two-entity graph with no prior edges. -/
theorem create_relationship_not_idempotent_witness :
    c3State.entities.any (fun e => e.id == c4Rel.from_entity_id) = true
    ∧ c3State.entities.any (fun e => e.id == c4Rel.to_entity_id) = true
    ∧ ((create_relationship c3State c4Rel).2 = true
      ∧ (create_relationship (create_relationship c3State c4Rel).1 c4Rel).2 = true
      ∧ ((create_relationship (create_relationship c3State c4Rel).1 c4Rel).1.rels.filter
          (fun r => r.from_id == c4Rel.from_entity_id && r.to_id == c4Rel.to_entity_id &&
            r.rel_type == c4Rel.relationship_type)).length
        = (c3State.rels.filter (fun r => r.from_id == c4Rel.from_entity_id &&
            r.to_id == c4Rel.to_entity_id && r.rel_type == c4Rel.relationship_type)).length
          + 2) :=
  ⟨by decide, by decide,
    create_relationship_not_idempotent c3State c4Rel (by decide) (by decide)⟩

/-- C2 (code bug): `merge_entities` on a merge entity with two mention
edges re-points the edges and deletes the entity, but the per-row `SET`
adds `merge.mention_count` once per mention row: the keep entity ends at
10 + 4 + 4 = 18 instead of the specified 10 + 4 = 14 (and the alias list
is appended twice). -/
theorem merge_entities_double_count :
    (merge_entities c2State "u" "k" "g" 0).2 = true
    ∧ (((merge_entities c2State "u" "k" "g" 0).1.entities.find?
        (fun e => e.id == "k")).map (fun e => e.mention_count)) = some 18
    ∧ (18 : Int) ≠ 10 + 4
    ∧ ((merge_entities c2State "u" "k" "g" 0).1.entities.find?
        (fun e => e.id == "g")) = none
    ∧ ((merge_entities c2State "u" "k" "g" 0).1.mentions.map
        (fun r => (r.entity_id, r.meeting_id, r.mention_count)))
      = [("k", "m1", 2), ("k", "m2", 3)]
    ∧ (((merge_entities c2State "u" "k" "g" 0).1.entities.find?
        (fun e => e.id == "k")).map (fun e => e.aliases))
      = some ["ga", "gg", "ga", "gg"] := by decide

/-- C10: when both entities exist under the owner but the merge entity has
no mention edge to any meeting, the merge query's per-mention unwinding
yields zero rows, so `merge_entities` reports failure and changes
nothing. -/
theorem merge_entities_no_mentions_noop
    (st : GraphState) (uid keep_id merge_id : String) (now : Nat)
    (kE gE : EntityNode)
    (hk : findByIdUser st keep_id uid = some kE)
    (hg : findByIdUser st merge_id uid = some gE)
    (hrows : st.mentions.filter (fun r =>
        r.entity_id == gE.id && meetingExists st r.meeting_id) = []) :
    merge_entities st uid keep_id merge_id now = (st, false) := by
  unfold merge_entities
  rw [hk, hg]
  simp [hrows]

/-- Witness for C10: keep and merge entities present, merge entity without
mention edges. -/
theorem merge_entities_no_mentions_noop_witness :
    findByIdUser c10State "k" "u" = some (mkEntityNode "k" "Person" "kk" 10 0)
    ∧ findByIdUser c10State "g" "u"
        = some { mkEntityNode "g" "Person" "gg" 4 0 with aliases := ["ga"] }
    ∧ c10State.mentions.filter (fun r =>
        r.entity_id == ({ mkEntityNode "g" "Person" "gg" 4 0 with aliases := ["ga"] }).id
        && meetingExists c10State r.meeting_id) = []
    ∧ merge_entities c10State "u" "k" "g" 9 = (c10State, false) :=
  ⟨by decide, by decide, by decide,
    merge_entities_no_mentions_noop c10State "u" "k" "g" 9
      (mkEntityNode "k" "Person" "kk" 10 0)
      { mkEntityNode "g" "Person" "gg" 4 0 with aliases := ["ga"] }
      (by decide) (by decide) (by decide)⟩

/-- C9: the extraction step's returned list keeps exactly the candidates at
or above the configured minimum confidence (default 0.7): a candidate below
the threshold is dropped — never handed on to the entity upsert — and a
candidate at or above it is kept. -/
theorem extract_entities_confidence_filter
    (extractions : List Extraction) (minC : Rat) :
    ∀ e, e ∈ extract_entities_post extractions minC ↔
      (e ∈ extractions.map toGroundedEntity ∧ minC ≤ e.confidence) := by
  intro e
  simp [extract_entities_post, filterByConfidence, List.mem_filter]

/-! ## Property-map lemmas -/

theorem find?_setProp_map (k : String) (v : PropVal) :
    ∀ ps : List (String × PropVal), ps.any (fun p => p.1 == k) = true →
    (ps.map (fun p => if p.1 == k then (k, v) else p)).find?
      (fun p => p.1 == k) = some (k, v) := by
  intro ps
  induction ps with
  | nil => intro h; simp at h
  | cons p t ih =>
    intro h
    cases hp : p.1 == k with
    | true =>
      have hfp : (if (p.1 == k) = true then (k, v) else p) = (k, v) :=
        if_pos hp
      simp only [List.map_cons, List.find?_cons, hfp]
      simp
    | false =>
      have hfp : (if (p.1 == k) = true then (k, v) else p) = p := by
        rw [if_neg]
        simp [hp]
      have ht : t.any (fun q => q.1 == k) = true := by
        rcases List.any_eq_true.mp h with ⟨x, hx, hxk⟩
        rcases List.mem_cons.mp hx with rfl | hx2
        · rw [hp] at hxk; cases hxk
        · exact List.any_eq_true.mpr ⟨x, hx2, hxk⟩
      rw [List.map_cons, List.find?_cons, hfp, hp]
      exact ih ht

theorem find?_eq_none_of_any_false {α : Type} (p : α → Bool) (l : List α)
    (h : l.any p = false) : l.find? p = none := by
  rw [List.find?_eq_none]
  intro x hx
  have := List.any_eq_false.mp h x hx
  simp [this]

theorem setProp_eq_map (ps : List (String × PropVal)) (k : String) (v : PropVal)
    (h : ps.any (fun p => p.1 == k) = true) :
    setProp ps k v = ps.map (fun p => if p.1 == k then (k, v) else p) := by
  unfold setProp
  rw [h]
  simp

theorem setProp_eq_append (ps : List (String × PropVal)) (k : String) (v : PropVal)
    (h : ps.any (fun p => p.1 == k) = false) :
    setProp ps k v = ps ++ [(k, v)] := by
  unfold setProp
  rw [h]
  simp

theorem getProp_setProp_same (ps : List (String × PropVal)) (k : String)
    (v : PropVal) : getProp (setProp ps k v) k = some v := by
  cases h : ps.any (fun p => p.1 == k) with
  | true =>
    rw [setProp_eq_map ps k v h]
    unfold getProp
    rw [find?_setProp_map k v ps h]
    rfl
  | false =>
    rw [setProp_eq_append ps k v h]
    unfold getProp
    rw [List.find?_append, find?_eq_none_of_any_false _ _ h]
    simp

theorem find?_congr_map {α : Type} (f : α → α) (p : α → Bool)
    (hstable : ∀ a, p (f a) = p a) (hfix : ∀ a, p a = true → f a = a) :
    ∀ l : List α, (l.map f).find? p = l.find? p := by
  intro l
  induction l with
  | nil => rfl
  | cons a t ih =>
    cases hp : p a with
    | true =>
      have hfa : p (f a) = true := by rw [hstable a]; exact hp
      simp only [List.map_cons, List.find?_cons, hfa, hp]
      rw [hfix a hp]
    | false =>
      have hfa : p (f a) = false := by rw [hstable a]; exact hp
      simp only [List.map_cons, List.find?_cons, hfa, hp]
      exact ih

theorem getProp_setProp_other (ps : List (String × PropVal)) (k k' : String)
    (v : PropVal) (hkk : (k == k') = false) :
    getProp (setProp ps k v) k' = getProp ps k' := by
  cases h : ps.any (fun p => p.1 == k) with
  | true =>
    rw [setProp_eq_map ps k v h]
    unfold getProp
    rw [find?_congr_map _ _ ?_ ?_ ps]
    · intro a
      cases ha : a.1 == k with
      | true =>
        have ha1 : a.1 = k := by simpa using ha
        simp [ha, ha1, hkk]
      | false => simp [ha]
    · intro a hak
      have ha1 : a.1 = k' := by simpa using hak
      cases ha : a.1 == k with
      | true =>
        have ha2 : a.1 = k := by simpa using ha
        rw [ha1] at ha2
        rw [ha2] at hkk
        simp at hkk
      | false => simp [ha]
  | false =>
    rw [setProp_eq_append ps k v h]
    unfold getProp
    rw [List.find?_append]
    cases hf : ps.find? (fun p => p.1 == k') with
    | some x => simp
    | none => simp [List.find?_cons, hkk]

/-! ## COLLABORATES_WITH merge lemmas -/

theorem isCollabEdge_setStrength (c d : String) (v : Int) (now : Nat)
    (r : RelEdge) : isCollabEdge c d (setStrength v now r) = isCollabEdge c d r := rfl

theorem isCollabEdge_merge_upd (a b c d : String) (v : Int) (now : Nat)
    (r : RelEdge) :
    isCollabEdge c d (if isCollabEdge a b r then setStrength v now r else r)
      = isCollabEdge c d r := by
  cases h : isCollabEdge a b r <;> simp [h, isCollabEdge_setStrength]

theorem mergeCollabEdge_eq_match (s : GraphState) (a b : String) (v : Int)
    (now : Nat) (h : s.rels.any (isCollabEdge a b) = true) :
    mergeCollabEdge s a b v now
      = { s with rels := s.rels.map (fun r =>
          if isCollabEdge a b r then setStrength v now r else r) } := by
  unfold mergeCollabEdge
  rw [h]
  simp

theorem mergeCollabEdge_eq_append (s : GraphState) (a b : String) (v : Int)
    (now : Nat) (h : s.rels.any (isCollabEdge a b) = false) :
    mergeCollabEdge s a b v now
      = { s with rels := s.rels ++ [newCollabEdge a b v now] } := by
  unfold mergeCollabEdge
  rw [h]
  simp

theorem mergeCollabEdge_fields (s : GraphState) (a b : String) (v : Int)
    (now : Nat) :
    (mergeCollabEdge s a b v now).entities = s.entities
    ∧ (mergeCollabEdge s a b v now).meetings = s.meetings
    ∧ (mergeCollabEdge s a b v now).mentions = s.mentions := by
  cases h : s.rels.any (isCollabEdge a b) with
  | true => rw [mergeCollabEdge_eq_match s a b v now h]; exact ⟨rfl, rfl, rfl⟩
  | false => rw [mergeCollabEdge_eq_append s a b v now h]; exact ⟨rfl, rfl, rfl⟩

theorem isEmpty_false_of_any_true {α : Type} (p : α → Bool) (l : List α)
    (h : l.any p = true) : (l.filter p).isEmpty = false := by
  obtain ⟨x, hx, hpx⟩ := List.any_eq_true.mp h
  have hmem : x ∈ l.filter p := List.mem_filter.mpr ⟨hx, hpx⟩
  cases hq : l.filter p with
  | nil => rw [hq] at hmem; simp at hmem
  | cons y t => simp [hq]

theorem cf_mergeCollabEdge_same (s : GraphState) (a b : String) (v : Int)
    (now : Nat) :
    cf (mergeCollabEdge s a b v now) a b
      = if (cf s a b).isEmpty then [newCollabEdge a b v now]
        else (cf s a b).map (setStrength v now) := by
  cases h : s.rels.any (isCollabEdge a b) with
  | true =>
    have hrels : (mergeCollabEdge s a b v now).rels
        = s.rels.map (fun r => if isCollabEdge a b r then setStrength v now r else r) := by
      rw [mergeCollabEdge_eq_match s a b v now h]
    have hne := isEmpty_false_of_any_true _ _ h
    unfold cf
    rw [hrels, if_neg (by rw [show (List.filter (isCollabEdge a b) s.rels).isEmpty = false from hne]; simp)]
    rw [filter_map_stable _ _ (isCollabEdge_merge_upd a b a b v now)]
    apply List.map_congr_left
    intro r hr
    rw [if_pos (List.mem_filter.mp hr).2]
  | false =>
    have hrels : (mergeCollabEdge s a b v now).rels
        = s.rels ++ [newCollabEdge a b v now] := by
      rw [mergeCollabEdge_eq_append s a b v now h]
    have hnil := filter_nil_of_any_false _ _ h
    unfold cf
    rw [hrels, List.filter_append, hnil]
    simp [List.filter_cons, isCollabEdge, newCollabEdge]

theorem cf_mergeCollabEdge_other (s : GraphState) (a b c d : String) (v : Int)
    (now : Nat) (hdiff : ¬(c = a ∧ d = b)) :
    cf (mergeCollabEdge s a b v now) c d = cf s c d := by
  cases h : s.rels.any (isCollabEdge a b) with
  | true =>
    have hrels : (mergeCollabEdge s a b v now).rels
        = s.rels.map (fun r => if isCollabEdge a b r then setStrength v now r else r) := by
      rw [mergeCollabEdge_eq_match s a b v now h]
    unfold cf
    rw [hrels, filter_map_stable _ _ (isCollabEdge_merge_upd a b c d v now)]
    have hfix : ∀ r ∈ s.rels.filter (isCollabEdge c d),
        (if isCollabEdge a b r then setStrength v now r else r) = r := by
      intro r hr
      cases hab : isCollabEdge a b r with
      | false => simp [hab]
      | true =>
        exfalso
        have hcd := (List.mem_filter.mp hr).2
        simp only [isCollabEdge, Bool.and_eq_true, beq_iff_eq] at hab hcd
        exact hdiff ⟨hcd.1.1.symm.trans hab.1.1, hcd.1.2.symm.trans hab.1.2⟩
    rw [List.map_congr_left hfix]
    simp
  | false =>
    have hrels : (mergeCollabEdge s a b v now).rels
        = s.rels ++ [newCollabEdge a b v now] := by
      rw [mergeCollabEdge_eq_append s a b v now h]
    unfold cf
    rw [hrels, List.filter_append]
    have hno : isCollabEdge c d (newCollabEdge a b v now) = false := by
      cases hx : isCollabEdge c d (newCollabEdge a b v now) with
      | false => rfl
      | true =>
        exfalso
        simp only [isCollabEdge, newCollabEdge, Bool.and_eq_true, beq_iff_eq] at hx
        exact hdiff ⟨hx.1.1.symm, hx.1.2.symm⟩
    simp [List.filter_cons, hno]

/-! ## Fold lemmas for infer_collaborations -/

theorem foldMergeCollab_fields (now : Nat) :
    ∀ (P : List ((String × String) × Int)) (s : GraphState),
    (foldMergeCollab s P now).entities = s.entities
    ∧ (foldMergeCollab s P now).meetings = s.meetings
    ∧ (foldMergeCollab s P now).mentions = s.mentions := by
  intro P
  induction P with
  | nil => intro s; exact ⟨rfl, rfl, rfl⟩
  | cons kv t ih =>
    intro s
    have hstep := mergeCollabEdge_fields s kv.1.1 kv.1.2 kv.2 now
    have hrec := ih (mergeCollabEdge s kv.1.1 kv.1.2 kv.2 now)
    exact ⟨hrec.1.trans hstep.1, hrec.2.1.trans hstep.2.1, hrec.2.2.trans hstep.2.2⟩

theorem cf_foldMergeCollab_not_mem (now : Nat) (a b : String) :
    ∀ (P : List ((String × String) × Int)) (s : GraphState),
    (∀ kv ∈ P, ¬(kv.1.1 = a ∧ kv.1.2 = b)) →
    cf (foldMergeCollab s P now) a b = cf s a b := by
  intro P
  induction P with
  | nil => intro s _; rfl
  | cons kv t ih =>
    intro s h
    have hstep : cf (mergeCollabEdge s kv.1.1 kv.1.2 kv.2 now) a b = cf s a b := by
      apply cf_mergeCollabEdge_other
      rintro ⟨h1, h2⟩
      exact h kv (List.mem_cons_self kv t) ⟨h1.symm, h2.symm⟩
    exact (ih (mergeCollabEdge s kv.1.1 kv.1.2 kv.2 now)
      (fun kv2 h2 => h kv2 (List.mem_cons_of_mem kv h2))).trans hstep

theorem cf_foldMergeCollab_mem (now : Nat) (a b : String) (v : Int) :
    ∀ (P : List ((String × String) × Int)) (s : GraphState),
    ((P.map Prod.fst).Nodup) → (((a, b), v) ∈ P) →
    cf (foldMergeCollab s P now) a b
      = if (cf s a b).isEmpty then [newCollabEdge a b v now]
        else (cf s a b).map (setStrength v now) := by
  intro P
  induction P with
  | nil => intro s _ hm; simp at hm
  | cons kv t ih =>
    intro s hnd hm
    rw [List.map_cons] at hnd
    have hnd' := List.nodup_cons.mp hnd
    rcases List.mem_cons.mp hm with heq | hmt
    · subst heq
      have hnotail : ∀ kv2 ∈ t, ¬(kv2.1.1 = a ∧ kv2.1.2 = b) := by
        rintro kv2 h2 ⟨hh1, hh2⟩
        apply hnd'.1
        have hkey : kv2.1 = (a, b) := Prod.ext_iff.mpr ⟨hh1, hh2⟩
        exact List.mem_map.mpr ⟨kv2, h2, hkey⟩
      have hchain : cf (foldMergeCollab s (((a, b), v) :: t) now) a b
          = cf (mergeCollabEdge s a b v now) a b :=
        cf_foldMergeCollab_not_mem now a b t (mergeCollabEdge s a b v now) hnotail
      exact hchain.trans (cf_mergeCollabEdge_same s a b v now)
    · have hkvne : ¬(a = kv.1.1 ∧ b = kv.1.2) := by
        rintro ⟨h1, h2⟩
        apply hnd'.1
        have hkey : kv.1 = (a, b) := Prod.ext_iff.mpr ⟨h1.symm, h2.symm⟩
        rw [hkey]
        exact List.mem_map.mpr ⟨((a, b), v), hmt, rfl⟩
      have hstep : cf (mergeCollabEdge s kv.1.1 kv.1.2 kv.2 now) a b = cf s a b :=
        cf_mergeCollabEdge_other s kv.1.1 kv.1.2 a b kv.2 now hkvne
      have hrec := ih (mergeCollabEdge s kv.1.1 kv.1.2 kv.2 now) hnd'.2 hmt
      rw [hstep] at hrec
      exact hrec

theorem collabProj_mergeCollabEdge (s : GraphState) (a b : String) (v : Int)
    (now : Nat) (hne : (cf s a b).isEmpty = false)
    (hstr : ∀ r ∈ cf s a b, getProp r.props "strength" = some (PropVal.i v)) :
    collabProj (mergeCollabEdge s a b v now) = collabProj s := by
  have hany : s.rels.any (isCollabEdge a b) = true := by
    cases h : s.rels.any (isCollabEdge a b) with
    | true => rfl
    | false =>
      have hn := filter_nil_of_any_false _ _ h
      unfold cf at hne
      rw [hn] at hne
      simp at hne
  have hrels : (mergeCollabEdge s a b v now).rels
      = s.rels.map (fun r => if isCollabEdge a b r then setStrength v now r else r) := by
    rw [mergeCollabEdge_eq_match s a b v now hany]
  unfold collabProj
  rw [hrels]
  have hstable : ∀ r : RelEdge,
      ((if isCollabEdge a b r then setStrength v now r else r).rel_type
        == "COLLABORATES_WITH")
      = (r.rel_type == "COLLABORATES_WITH") := by
    intro r
    cases h : isCollabEdge a b r <;> simp [h, setStrength]
  rw [filter_map_stable _ _ hstable, List.map_map]
  apply List.map_congr_left
  intro r hr
  dsimp only [Function.comp]
  cases hab : isCollabEdge a b r with
  | false => rw [if_neg (by simp)]
  | true =>
    rw [if_pos (show (true : Bool) = true from rfl)]
    have hrcf : r ∈ cf s a b :=
      List.mem_filter.mpr ⟨(List.mem_filter.mp hr).1, hab⟩
    have hs := hstr r hrcf
    have h1 : getProp (setProp (setProp r.props "strength" (PropVal.i v))
        "updated_at" (PropVal.i now)) "strength" = some (PropVal.i v) := by
      rw [getProp_setProp_other _ _ _ _ (by decide)]
      exact getProp_setProp_same _ _ _
    have h2 : getProp (setProp (setProp r.props "strength" (PropVal.i v))
        "updated_at" (PropVal.i now)) "source" = getProp r.props "source" := by
      rw [getProp_setProp_other _ _ _ _ (by decide),
        getProp_setProp_other _ _ _ _ (by decide)]
    simp only [setStrength]
    rw [h1, h2, hs]

theorem collabProj_foldMergeCollab (now : Nat) :
    ∀ (P : List ((String × String) × Int)) (s : GraphState),
    ((P.map Prod.fst).Nodup) →
    (∀ kv ∈ P, (cf s kv.1.1 kv.1.2).isEmpty = false ∧
      ∀ r ∈ cf s kv.1.1 kv.1.2, getProp r.props "strength" = some (PropVal.i kv.2)) →
    collabProj (foldMergeCollab s P now) = collabProj s := by
  intro P
  induction P with
  | nil => intro s _ _; rfl
  | cons kv t ih =>
    intro s hnd hyp
    have hhd := hyp kv (List.mem_cons_self kv t)
    have hstep := collabProj_mergeCollabEdge s kv.1.1 kv.1.2 kv.2 now hhd.1 hhd.2
    rw [List.map_cons] at hnd
    have hnd' := List.nodup_cons.mp hnd
    have htail : ∀ kv2 ∈ t,
        (cf (mergeCollabEdge s kv.1.1 kv.1.2 kv.2 now) kv2.1.1 kv2.1.2).isEmpty = false ∧
        ∀ r ∈ cf (mergeCollabEdge s kv.1.1 kv.1.2 kv.2 now) kv2.1.1 kv2.1.2,
          getProp r.props "strength" = some (PropVal.i kv2.2) := by
      intro kv2 h2
      have hne2 : ¬(kv2.1.1 = kv.1.1 ∧ kv2.1.2 = kv.1.2) := by
        rintro ⟨e1, e2⟩
        apply hnd'.1
        have hkey : kv.1 = kv2.1 := (Prod.ext_iff.mpr ⟨e1, e2⟩).symm
        rw [hkey]
        exact List.mem_map.mpr ⟨kv2, h2, rfl⟩
      rw [cf_mergeCollabEdge_other s kv.1.1 kv.1.2 kv2.1.1 kv2.1.2 kv.2 now hne2]
      exact hyp kv2 (List.mem_cons_of_mem kv h2)
    exact (ih (mergeCollabEdge s kv.1.1 kv.1.2 kv.2 now) hnd'.2 htail).trans hstep

/-! ## Congruence and job-list lemmas for infer_collaborations -/

theorem infer_eq_foldMergeCollab (s : GraphState) (uid : String)
    (minCo now : Nat) :
    (infer_collaborations s uid minCo now).1
      = foldMergeCollab s (collabKeyJobs s uid minCo) now := by
  unfold infer_collaborations foldMergeCollab collabKeyJobs
  rw [List.foldl_map]

theorem sharedMeetingCount_congr (s1 s2 : GraphState) (a b : String)
    (hm : s1.meetings = s2.meetings) (hn : s1.mentions = s2.mentions) :
    sharedMeetingCount s1 a b = sharedMeetingCount s2 a b := by
  unfold sharedMeetingCount
  simp only [hm, hn]

theorem collabPairs_congr (s1 s2 : GraphState) (uid : String) (minCo : Nat)
    (he : s1.entities = s2.entities) (hm : s1.meetings = s2.meetings)
    (hn : s1.mentions = s2.mentions) :
    collabPairs s1 uid minCo = collabPairs s2 uid minCo := by
  unfold collabPairs sharedMeetingCount
  simp only [he, hm, hn]

theorem collabKeyJobs_congr (s1 s2 : GraphState) (uid : String) (minCo : Nat)
    (he : s1.entities = s2.entities) (hm : s1.meetings = s2.meetings)
    (hn : s1.mentions = s2.mentions) :
    collabKeyJobs s1 uid minCo = collabKeyJobs s2 uid minCo := by
  unfold collabKeyJobs
  rw [collabPairs_congr s1 s2 uid minCo he hm hn]
  apply List.map_congr_left
  intro p hp
  rw [sharedMeetingCount_congr s1 s2 p.1.id p.2.id hm hn]

theorem collabKeyJobs_keys_nodup (s : GraphState) (uid : String) (minCo : Nat)
    (hids : (s.entities.map (fun e => e.id)).Nodup) :
    ((collabKeyJobs s uid minCo).map Prod.fst).Nodup := by
  unfold collabKeyJobs
  rw [List.map_map]
  unfold collabPairs
  rw [List.map_flatMap, List.nodup_flatMap]
  constructor
  · intro p1 hp1
    rw [List.map_map]
    apply List.Nodup.map_on
    · intro x hx y hy hxy
      have hid : x.id = y.id := congrArg Prod.snd hxy
      exact List.inj_on_of_nodup_map hids (List.mem_of_mem_filter hx)
        (List.mem_of_mem_filter hy) hid
    · exact (List.Nodup.of_map _ hids).filter _
  · have hpw : s.entities.Pairwise (fun e1 e2 => e1.id ≠ e2.id) :=
      List.pairwise_map.mp hids
    apply List.Pairwise.imp ?_ hpw
    intro e1 e2 hne
    simp only [Function.onFun]
    intro x hx1 hx2
    rcases List.mem_map.mp hx1 with ⟨q1, hq1m, hq1⟩
    rcases List.mem_map.mp hx2 with ⟨q2, hq2m, hq2⟩
    rcases List.mem_map.mp hq1m with ⟨w1, _, hw1⟩
    rcases List.mem_map.mp hq2m with ⟨w2, _, hw2⟩
    have h1 : x.1 = e1.id := by
      rw [← hq1, ← hw1]
      try rfl
    have h2 : x.1 = e2.id := by
      rw [← hq2, ← hw2]
      try rfl
    exact hne (h1.symm.trans h2)

theorem getProp_setStrength_strength (r : RelEdge) (v : Int) (now : Nat) :
    getProp (setStrength v now r).props "strength" = some (PropVal.i v) := by
  simp only [setStrength]
  rw [getProp_setProp_other _ _ _ _ (by decide)]
  exact getProp_setProp_same _ _ _

theorem getProp_setStrength_source (r : RelEdge) (v : Int) (now : Nat) :
    getProp (setStrength v now r).props "source" = getProp r.props "source" := by
  simp only [setStrength]
  rw [getProp_setProp_other _ _ _ _ (by decide),
    getProp_setProp_other _ _ _ _ (by decide)]

theorem mem_collabPairs_facts (s : GraphState) (uid : String) (minCo : Nat)
    (p : EntityNode × EntityNode) (hp : p ∈ collabPairs s uid minCo) :
    p.1.id < p.2.id ∧ minCo ≤ sharedMeetingCount s p.1.id p.2.id := by
  unfold collabPairs at hp
  rcases List.mem_flatMap.mp hp with ⟨p1, _hp1, hmem⟩
  rcases List.mem_map.mp hmem with ⟨p2, hp2m, hpe⟩
  subst hpe
  have hfilt := (List.mem_filter.mp hp2m).2
  simp only [Bool.and_eq_true, decide_eq_true_eq] at hfilt
  exact ⟨hfilt.1.1.2, hfilt.2⟩

theorem collabKeyJobs_mem_facts (s : GraphState) (uid : String) (minCo : Nat)
    (kv : (String × String) × Int) (h : kv ∈ collabKeyJobs s uid minCo) :
    kv.1.1 < kv.1.2 ∧ kv.2 = Int.ofNat (sharedMeetingCount s kv.1.1 kv.1.2) := by
  unfold collabKeyJobs at h
  rcases List.mem_map.mp h with ⟨p, hpm, hpe⟩
  have hf := mem_collabPairs_facts s uid minCo p hpm
  subst hpe
  exact ⟨hf.1, rfl⟩

theorem qualifies_mem_jobs (st : GraphState) (uid : String) (minCo : Nat)
    (a b : String) (hmin : 1 ≤ minCo)
    (hq : QualifiesCollab st uid minCo a b) :
    ((a, b), Int.ofNat (sharedMeetingCount st a b)) ∈ collabKeyJobs st uid minCo := by
  obtain ⟨p, hp, q, hqm, hpl, hql, hpu, hqu, hpa, hqb, hab, hcnt⟩ := hq
  unfold collabKeyJobs
  apply List.mem_map.mpr
  refine ⟨(p, q), ?_, ?_⟩
  · unfold collabPairs
    apply List.mem_flatMap.mpr
    refine ⟨p, hp, ?_⟩
    apply List.mem_map.mpr
    refine ⟨q, ?_, rfl⟩
    apply List.mem_filter.mpr
    refine ⟨hqm, ?_⟩
    have hlt : p.id < q.id := by rw [hpa, hqb]; exact hab
    have h1le : 1 ≤ sharedMeetingCount st p.id q.id := by
      rw [hpa, hqb]; exact hmin.trans hcnt
    have hminle : minCo ≤ sharedMeetingCount st p.id q.id := by
      rw [hpa, hqb]; exact hcnt
    simp [hpl, hql, hpu, hqu, hlt, h1le, hminle]
  · rw [hpa, hqb]

theorem cf_nil_of_not_lt (st : GraphState) (x y : String)
    (hdir : ∀ r ∈ st.rels, r.rel_type = "COLLABORATES_WITH" → r.from_id < r.to_id)
    (h : ¬(x < y)) : cf st x y = [] := by
  unfold cf
  rw [List.filter_eq_nil_iff]
  intro r hr hc
  simp only [isCollabEdge, Bool.and_eq_true, beq_iff_eq] at hc
  apply h
  rw [← hc.1.1, ← hc.1.2]
  exact hdir r hr hc.2

/-- C8: `infer_collaborations` is an idempotent refresh.  On a graph whose
`COLLABORATES_WITH` edges are inference-maintained (oriented lower→higher
id, `source = inferred`, at most one per ordered pair), one run leaves, for
every qualifying unordered pair of Person entities of the owner (shared
distinct meetings ≥ threshold), exactly one `COLLABORATES_WITH` edge — with
`strength` equal to the current shared-meeting count and
`source = inferred` — and a second run with unchanged mentions reproduces
the same edge set with unchanged strengths (only refreshed, never
duplicated; the strength is always set to the current count, so it can
rise and fall with the evidence). -/
theorem infer_collaborations_idempotent_refresh
    (st : GraphState) (uid : String) (minCo : Nat) (now1 now2 : Nat)
    (hmin : 1 ≤ minCo)
    (hids : (st.entities.map (fun e => e.id)).Nodup)
    (hdir : ∀ r ∈ st.rels, r.rel_type = "COLLABORATES_WITH" → r.from_id < r.to_id)
    (hsrc : ∀ r ∈ st.rels, r.rel_type = "COLLABORATES_WITH" →
        getProp r.props "source" = some (PropVal.s "inferred"))
    (hone : ∀ a b, (cf st a b).length ≤ 1) :
    (∀ a b, QualifiesCollab st uid minCo a b →
      ((cf (infer_collaborations st uid minCo now1).1 a b).length = 1
        ∧ (∀ r ∈ cf (infer_collaborations st uid minCo now1).1 a b,
            getProp r.props "strength"
              = some (PropVal.i (Int.ofNat (sharedMeetingCount st a b)))
            ∧ getProp r.props "source" = some (PropVal.s "inferred"))
        ∧ cf (infer_collaborations st uid minCo now1).1 b a = []))
    ∧ collabProj (infer_collaborations
          (infer_collaborations st uid minCo now1).1 uid minCo now2).1
        = collabProj (infer_collaborations st uid minCo now1).1 := by
  have hndk := collabKeyJobs_keys_nodup st uid minCo hids
  have heq1 := infer_eq_foldMergeCollab st uid minCo now1
  constructor
  · intro a b hq
    have hmemj := qualifies_mem_jobs st uid minCo a b hmin hq
    have hchar := cf_foldMergeCollab_mem now1 a b
      (Int.ofNat (sharedMeetingCount st a b)) (collabKeyJobs st uid minCo)
      st hndk hmemj
    obtain ⟨p, hp, q, hqm, hpl, hql, hpu, hqu, hpa, hqb, hab, hcnt⟩ := hq
    rw [heq1]
    refine ⟨?_, ?_, ?_⟩
    · rw [hchar]
      cases hemp : (cf st a b).isEmpty with
      | true =>
        rw [if_pos (show (true : Bool) = true from rfl)]
        rfl
      | false =>
        rw [if_neg (by simp)]
        rw [List.length_map]
        cases hl : cf st a b with
        | nil => rw [hl] at hemp; simp at hemp
        | cons e tail =>
          have hle := hone a b
          rw [hl] at hle
          simp only [List.length_cons] at hle ⊢
          omega
    · intro r hr
      rw [hchar] at hr
      cases hemp : (cf st a b).isEmpty with
      | true =>
        rw [if_pos hemp] at hr
        have hre : r = newCollabEdge a b (Int.ofNat (sharedMeetingCount st a b)) now1 :=
          List.mem_singleton.mp hr
        subst hre
        exact ⟨rfl, rfl⟩
      | false =>
        rw [if_neg (by rw [hemp]; simp)] at hr
        rcases List.mem_map.mp hr with ⟨e, hecf, hee⟩
        subst hee
        constructor
        · exact getProp_setStrength_strength e _ now1
        · rw [getProp_setStrength_source]
          have hm := List.mem_filter.mp hecf
          have htype : e.rel_type = "COLLABORATES_WITH" := by
            have h2 := hm.2
            simp only [isCollabEdge, Bool.and_eq_true, beq_iff_eq] at h2
            exact h2.2
          exact hsrc e hm.1 htype
    · have hba : ¬(b < a) := fun hlt => absurd hab (lt_asymm hlt)
      have hnokeys : ∀ kv ∈ collabKeyJobs st uid minCo,
          ¬(kv.1.1 = b ∧ kv.1.2 = a) := by
        rintro kv hkv ⟨e1, e2⟩
        have hf := collabKeyJobs_mem_facts st uid minCo kv hkv
        rw [e1, e2] at hf
        exact hba hf.1
      rw [cf_foldMergeCollab_not_mem now1 b a (collabKeyJobs st uid minCo) st hnokeys]
      exact cf_nil_of_not_lt st b a hdir hba
  · have hfields := foldMergeCollab_fields now1 (collabKeyJobs st uid minCo) st
    have heqjobs : collabKeyJobs (infer_collaborations st uid minCo now1).1 uid minCo
        = collabKeyJobs st uid minCo := by
      apply collabKeyJobs_congr
      · rw [heq1]; exact hfields.1
      · rw [heq1]; exact hfields.2.1
      · rw [heq1]; exact hfields.2.2
    rw [infer_eq_foldMergeCollab (infer_collaborations st uid minCo now1).1 uid minCo now2,
      heqjobs]
    apply collabProj_foldMergeCollab now2 (collabKeyJobs st uid minCo) _ hndk
    intro kv hkv
    have hkv2 : ((kv.1.1, kv.1.2), kv.2) ∈ collabKeyJobs st uid minCo := hkv
    have hchar := cf_foldMergeCollab_mem now1 kv.1.1 kv.1.2 kv.2
      (collabKeyJobs st uid minCo) st hndk hkv2
    rw [heq1, hchar]
    cases hemp : (cf st kv.1.1 kv.1.2).isEmpty with
    | true =>
      rw [if_pos (show (true : Bool) = true from rfl)]
      refine ⟨by simp, ?_⟩
      intro r hr
      have hre : r = newCollabEdge kv.1.1 kv.1.2 kv.2 now1 := List.mem_singleton.mp hr
      subst hre
      rfl
    | false =>
      rw [if_neg (by simp)]
      constructor
      · cases hl : cf st kv.1.1 kv.1.2 with
        | nil => rw [hl] at hemp; simp at hemp
        | cons e tail => simp [hl]
      · intro r hr
        rcases List.mem_map.mp hr with ⟨e, _hem, hee⟩
        subst hee
        exact getProp_setStrength_strength e kv.2 now1

/-- Witness for C8: two Person entities of owner `"u"` sharing three
meetings, threshold 3, no pre-existing relationship edges. -/
theorem infer_collaborations_idempotent_refresh_witness :
    (1 : Nat) ≤ 3
    ∧ (c8State.entities.map (fun e => e.id)).Nodup
    ∧ (∀ r ∈ c8State.rels, r.rel_type = "COLLABORATES_WITH" → r.from_id < r.to_id)
    ∧ (∀ r ∈ c8State.rels, r.rel_type = "COLLABORATES_WITH" →
        getProp r.props "source" = some (PropVal.s "inferred"))
    ∧ (∀ a b, (cf c8State a b).length ≤ 1)
    ∧ ((∀ a b, QualifiesCollab c8State "u" 3 a b →
        ((cf (infer_collaborations c8State "u" 3 1).1 a b).length = 1
          ∧ (∀ r ∈ cf (infer_collaborations c8State "u" 3 1).1 a b,
              getProp r.props "strength"
                = some (PropVal.i (Int.ofNat (sharedMeetingCount c8State a b)))
              ∧ getProp r.props "source" = some (PropVal.s "inferred"))
          ∧ cf (infer_collaborations c8State "u" 3 1).1 b a = []))
      ∧ collabProj (infer_collaborations
            (infer_collaborations c8State "u" 3 1).1 "u" 3 2).1
          = collabProj (infer_collaborations c8State "u" 3 1).1) :=
  ⟨by decide, by decide, by decide, by decide,
    (fun a b => by simp [cf, c8State]),
    infer_collaborations_idempotent_refresh c8State "u" 3 1 2
      (by decide) (by decide) (by decide) (by decide)
      (fun a b => by simp [cf, c8State])⟩

end Tami
